import Mathlib

/-!
Shallow embedding of `haptools/data/genotypes.py`: the `Genotypes` class
(read / check_biallelic / check_phase / to_MAC) and the `GenotypesPLINK.read`
method, together with the numpy operations they use.

The genotype tensor `data` is a nested list, samples x variants x channels,
with entries in `Nat` (numpy uint8 values; conversion to uint8 wraps mod 256,
and numpy's `~` on uint8 is `255 - x`).  numpy's boolean dtype is tracked by
an explicit `dtype` field with values in `{0, 1}`; the channel count
`shape[2]` is tracked in the `nchan` field (numpy keeps shape metadata even
for size-0 axes, where it cannot be recovered from a nested-list view).
Warnings emitted through `self.log.warning` are counted in `warnings`.
-/

namespace HapTools

/-- numpy dtypes that `Genotypes.data` takes in the source: it starts as
`np.uint8` after `read` and becomes `np.bool_` after `check_biallelic`. -/
inductive DType where
  | uint8 : DType
  | bool : DType
deriving DecidableEq

/-- One entry of `Genotypes.variants`: the structured numpy record
`(id, chrom, pos, aaf)` built in `Genotypes.read`. -/
structure Variant where
  id : String
  chrom : String
  pos : Nat
  aaf : ℚ
deriving DecidableEq

instance : Inhabited Variant := ⟨⟨"", "", 0, 0⟩⟩

/-- The state of a `Genotypes` object: the tensor `data` (samples x variants
x channels), its dtype and channel count, the `samples` tuple, the `variants`
structured array, the name of its fourth field (`"aaf"`, renamed to `"maf"`
by `to_MAC`), and a count of logged warnings. -/
structure Genotypes where
  data : List (List (List Nat))
  dtype : DType
  nchan : Nat
  samples : List String
  variants : List Variant
  freqName : String
  warnings : Nat
deriving DecidableEq

/-- The exceptions raised by the embedded methods.  In the source both
checks raise `ValueError` with a formatted message; we keep the formatted
fields (variant id, chrom, pos, sample name) as structured data. -/
inductive GtError where
  | typeError : GtError
  | valueError : String → GtError
  | multiallelic : String → String → Nat → String → GtError
  | unphased : String → String → Nat → String → GtError
deriving DecidableEq

/-- numpy `~x`: bitwise complement on uint8 (`255 - x` for `x < 256`),
logical negation on bools. -/
def npNot (dt : DType) (x : Nat) : Nat :=
  match dt with
  | DType.uint8 => 255 - x
  | DType.bool => if x = 0 then 1 else 0

/-- `astype(np.bool_)` on one entry: nonzero becomes `True` (1). -/
def narrow (x : Nat) : Nat :=
  if x = 0 then 0 else 1

/-- Keep the elements of `l` from position `i` on whose position satisfies
`p` (helper for `keepByIdx`). -/
def keepFrom (p : Nat → Bool) : Nat → List α → List α
  | _, [] => []
  | i, a :: rest =>
    if p i then a :: keepFrom p (i + 1) rest else keepFrom p (i + 1) rest

/-- Keep the elements of `l` whose position satisfies `p`
(`np.delete` complement / boolean-mask indexing along one axis). -/
def keepByIdx (p : Nat → Bool) (l : List α) : List α :=
  keepFrom p 0 l

/-- `np.delete(l, vs)` along one axis: drop the positions listed in `vs`
(duplicates and ordering in `vs` are irrelevant, as for numpy's mask). -/
def removeIdxs (vs : List Nat) (l : List α) : List α :=
  keepByIdx (fun i => !(vs.contains i)) l

/-- All pairs `(s, v)` with `s < n` and `v ∈ f s`, in sample-major order:
this is the order in which `np.nonzero` reports the true entries of a 2-D
(sample x variant) mask. -/
def scanPairs (n : Nat) (f : Nat → List Nat) : List (Nat × Nat) :=
  (List.range n).flatMap (fun s => (f s).map (fun v => (s, v)))

/-- `cell[:2] > 1` anywhere: evidence of a second ALT allele at this
(sample, variant) entry (`self.data[:, :, :2] > 1` reduced over axis 2). -/
def cellMulti (cell : List Nat) : Bool :=
  (cell.take 2).any (fun x => decide (1 < x))

/-- The multiallelic mask at indices `(s, v)` (False outside the tensor). -/
def multiAt (g : Genotypes) (s v : Nat) : Bool :=
  cellMulti ((g.data.getD s []).getD v [])

/-- Column indices of one row of the multiallelic mask that are set. -/
def rowOffending (row : List (List Nat)) : List Nat :=
  (List.range row.length).filter (fun v => cellMulti (row.getD v []))

/-- `np.nonzero(multiallelic)` as the parallel index pairs, sample-major. -/
def offendingPairs (g : Genotypes) : List (Nat × Nat) :=
  scanPairs g.data.length (fun s => rowOffending (g.data.getD s []))

/-- The unphased mask at one entry:
`(data[s,v,0] ^ data[s,v,1]) & (~data[s,v,2])`, as computed bitwise by the
source on the tensor's current dtype. -/
def unphVal (dt : DType) (cell : List Nat) : Nat :=
  Nat.land (Nat.xor (cell.getD 0 0) (cell.getD 1 0)) (npNot dt (cell.getD 2 0))

/-- The unphased mask at indices `(s, v)` (0 outside the tensor). -/
def unphAt (g : Genotypes) (s v : Nat) : Bool :=
  decide (unphVal g.dtype ((g.data.getD s []).getD v []) ≠ 0)

/-- Column indices of one row of the unphased mask that are nonzero. -/
def rowUnphased (dt : DType) (row : List (List Nat)) : List Nat :=
  (List.range row.length).filter (fun v => decide (unphVal dt (row.getD v []) ≠ 0))

/-- `np.nonzero(unphased)` as the parallel index pairs, sample-major. -/
def unphasedPairs (g : Genotypes) : List (Nat × Nat) :=
  scanPairs g.data.length (fun s => rowUnphased g.dtype (g.data.getD s []))

/-- `self.data = self.data.astype(np.bool_)`. -/
def narrowToBool (g : Genotypes) : Genotypes :=
  { g with
    data := g.data.map (fun row => row.map (fun cell => cell.map narrow))
    dtype := DType.bool }

/-- `Genotypes.check_biallelic(discard_also)`.  Each Python statement is
translated in order; a `raise` stops execution and returns the state as it
stood at the raise, paired with the error. -/
def Genotypes.check_biallelic (g : Genotypes) (discard_also : Bool) :
    Genotypes × Option GtError :=
  if g.dtype = DType.bool then
    ({ g with warnings := g.warnings + 1 }, none)
  else
    match offendingPairs g with
    | [] => (narrowToBool g, none)
    | (s, v) :: rest =>
      if discard_also then
        let variant_idx := ((s, v) :: rest).map Prod.snd
        let g1 :=
          { g with
            data := g.data.map (fun row => removeIdxs variant_idx row)
            variants := removeIdxs variant_idx g.variants }
        (narrowToBool g1, none)
      else
        (g, some (GtError.multiallelic (g.variants.getD v default).id
          (g.variants.getD v default).chrom (g.variants.getD v default).pos
          (g.samples.getD s "")))

/-- `Genotypes.check_phase()`.  Checks `self.data.shape[2] < 3` first
(idempotence warning), then the bitwise unphased mask, then slices off the
phase channel with `self.data[:, :, :2]`. -/
def Genotypes.check_phase (g : Genotypes) : Genotypes × Option GtError :=
  if g.nchan < 3 then
    ({ g with warnings := g.warnings + 1 }, none)
  else
    match unphasedPairs g with
    | [] =>
      ({ g with
         data := g.data.map (fun row => row.map (fun cell => cell.take 2))
         nchan := min g.nchan 2 }, none)
    | (s, v) :: _ =>
      (g, some (GtError.unphased (g.variants.getD v default).id
        (g.variants.getD v default).chrom (g.variants.getD v default).pos
        (g.samples.getD s "")))

/-- `~cell[:2]` written back in place: complement the first two channels of
a cell, leave the rest. -/
def flip2 (dt : DType) (cell : List Nat) : List Nat :=
  (cell.take 2).map (npNot dt) ++ cell.drop 2

/-- `Genotypes.to_MAC()`: for variants with `aaf > 0.5`, complement the two
strand channels and replace `aaf` by `1 - aaf`; finally rename the `aaf`
field to `maf`.  Warns and returns unchanged if already renamed. -/
def Genotypes.to_MAC (g : Genotypes) : Genotypes :=
  if g.freqName = "maf" then
    { g with warnings := g.warnings + 1 }
  else
    { g with
      data := g.data.map (fun row =>
        (row.zip g.variants).map (fun p =>
          if (1 : ℚ) / 2 < p.2.aaf then flip2 g.dtype p.1 else p.1))
      variants := g.variants.map (fun rec =>
        if (1 : ℚ) / 2 < rec.aaf then { rec with aaf := 1 - rec.aaf } else rec)
      freqName := "maf" }

/-!  The VCF reading path.  The external cyvcf2 reader is out of scope; a
`VCFSource` is the already-selected view it yields: the sample names and the
per-variant records (each record's `genotypes` is the samples x 3 nested
list cyvcf2 returns).  -/

/-- One record yielded by the VCF iterator. -/
structure VCFRecord where
  id : String
  chrom : String
  pos : Nat
  aaf : ℚ
  genotypes : List (List Nat)
deriving DecidableEq

/-- The selected view of a VCF source. -/
structure VCFSource where
  samples : List String
  records : List VCFRecord
deriving DecidableEq

/-- The shape numpy infers for `np.array` of a (rectangular) nested list:
`(0,)` for the empty list, `(p, 0)` when the rows are empty, and
`(p, n, c)` otherwise. -/
def npShape3 (l : List (List (List Nat))) : List Nat :=
  match l with
  | [] => [0]
  | r :: _ =>
    match r with
    | [] => [l.length, 0]
    | c :: _ => [l.length, r.length, c.length]

/-- `transpose((1, 0, 2))` of a (variant x sample x channel) nested list
whose second axis has extent `n`: swap the first two axes. -/
def transpose102 (n : Nat) (l : List (List (List Nat))) :
    List (List (List Nat)) :=
  (List.range n).map (fun s => l.map (fun vrow => vrow.getD s []))

/-- The variant-major data list built by the read loop, converted to uint8
(`np.array(self.data, dtype=np.uint8)` wraps each entry mod 256). -/
def recordData (src : VCFSource) : List (List (List Nat)) :=
  src.records.map (fun r => r.genotypes.map (fun cell => cell.map (· % 256)))

/-- `Genotypes.read(region, samples)` on the selected view `src`:
assembles `samples`, `variants` and the data list, warns when the array's
shape is exactly `(0, 0, 0)`, then transposes `(1, 0, 2)` — which raises a
`ValueError` unless the array is 3-dimensional. -/
def readVCF (src : VCFSource) : Except GtError Genotypes :=
  let variants := src.records.map (fun r =>
    ({ id := r.id, chrom := r.chrom, pos := r.pos, aaf := r.aaf } : Variant))
  let dataV := recordData src
  let w := if npShape3 dataV = [0, 0, 0] then 1 else 0
  match npShape3 dataV with
  | [_, n, c] =>
    Except.ok
      { data := transpose102 n dataV
        dtype := DType.uint8
        nchan := c
        samples := src.samples
        variants := variants
        freqName := "aaf"
        warnings := w }
  | _ => Except.error (GtError.valueError "axes do not match array")

/-!  The PLINK reading path (`GenotypesPLINK.read`). -/

/-- The selected view of a `.pgen` source: the raw sample count and the
variant-major allele rows (each of width `2 * sample count`). -/
structure PGENSource where
  rawSampleCt : Nat
  alleles : List (List Nat)
deriving DecidableEq

/-- `GenotypesPLINK.read`, statement by statement: the source sets
`variant_ct_start = 0` and `variant_ct_end = None`, then evaluates
`variant_ct = variant_ct_end - variant_ct_start`, which in Python raises
`TypeError` (`None - int`) before the file is ever opened.  The remainder
of the method (allele read, dstack of the two strand columns, transpose) is
translated in the `some` branch, which is unreachable. -/
def plinkRead (src : PGENSource) : Except GtError Genotypes :=
  let variant_ct_start : Nat := 0
  let variant_ct_end : Option Nat := none
  match variant_ct_end with
  | none => Except.error GtError.typeError
  | some vce =>
    let variant_ct := vce - variant_ct_start
    let sample_ct := src.rawSampleCt
    let raw := src.alleles.take variant_ct
    let stacked := raw.map (fun row =>
      (List.range sample_ct).map (fun s => [row.getD (2 * s) 0, row.getD (2 * s + 1) 0]))
    Except.ok
      { data := transpose102 sample_ct stacked
        dtype := DType.uint8
        nchan := 2
        samples := []
        variants := []
        freqName := "aaf"
        warnings := 0 }

/-!  Claim-side predicates, written from the spec's wording so the theorems
can compare the code's behaviour against them. -/

/-- Some entry of the tensor is heterozygous (`strand1 != strand2`) with a
false phase flag — the spec's condition for a `check_phase` failure. -/
def hetUnphasedExists (g : Genotypes) : Bool :=
  g.data.any (fun row => row.any (fun cell =>
    (cell.getD 0 0 != cell.getD 1 0) && (cell.getD 2 0 == 0)))

/-- Some entry of the first two channels exceeds 1 — the spec's condition
for a multiallelic site. -/
def hasMulti (g : Genotypes) : Bool :=
  g.data.any (fun row => row.any cellMulti)

/-- Variant column `v` holds a value above 1 in some sample's first two
channels. -/
def variantMulti (g : Genotypes) (v : Nat) : Bool :=
  g.data.any (fun row => cellMulti (row.getD v []))

/-- The tensor entry `data[s, v, ch]` (0 outside the tensor). -/
def cellAt (g : Genotypes) (s v ch : Nat) : Nat :=
  ((g.data.getD s []).getD v []).getD ch 0

/-- Sample-major (lexicographic) order on (sample, variant) index pairs. -/
def lexLe (a b : Nat × Nat) : Prop :=
  a.1 < b.1 ∨ (a.1 = b.1 ∧ a.2 ≤ b.2)

/-- Strict sample-major order on (sample, variant) index pairs. -/
def lexLt (a b : Nat × Nat) : Prop :=
  a.1 < b.1 ∨ (a.1 = b.1 ∧ a.2 < b.2)

/-- The dimension invariant of the spec: the tensor's sample axis matches
`samples` and its variant axis matches `variants`. -/
def dimsOk (g : Genotypes) : Prop :=
  g.data.length = g.samples.length ∧
    ∀ row ∈ g.data, row.length = g.variants.length

instance (g : Genotypes) : Decidable (dimsOk g) := by
  unfold dimsOk; infer_instance

/-- The external reader's contract: every record carries one genotype row
per selected sample. -/
def WellFormedSource (src : VCFSource) : Prop :=
  ∀ r ∈ src.records, r.genotypes.length = src.samples.length

instance (src : VCFSource) : Decidable (WellFormedSource src) := by
  unfold WellFormedSource; infer_instance

/-!  Concrete states used as counterexamples and witnesses. -/

/-- A 1-sample, 1-variant matrix whose only entry is `(2, 0, phased)`:
heterozygous (2 ≠ 0) but phased, on non-narrowed uint8 data. -/
def c1state : Genotypes :=
  { data := [[[2, 0, 1]]], dtype := DType.uint8, nchan := 3,
    samples := ["S1"], variants := [⟨"V1", "1", 100, 1/2⟩],
    freqName := "aaf", warnings := 0 }

/-- A well-formed 2-sample, 2-variant uint8 matrix, all phased, biallelic. -/
def gOk : Genotypes :=
  { data := [[[0, 1, 1], [0, 0, 1]], [[1, 1, 1], [1, 0, 1]]],
    dtype := DType.uint8, nchan := 3,
    samples := ["A", "B"], variants := [⟨"V1", "1", 10, 3/5⟩, ⟨"V2", "1", 20, 2/5⟩],
    freqName := "aaf", warnings := 0 }

/-- Like `gOk` but sample B carries a third-allele code 2 at variant 1. -/
def gMulti : Genotypes :=
  { data := [[[0, 1, 1], [0, 0, 1]], [[2, 1, 1], [1, 0, 1]]],
    dtype := DType.uint8, nchan := 3,
    samples := ["A", "B"], variants := [⟨"V1", "1", 10, 3/5⟩, ⟨"V2", "1", 20, 2/5⟩],
    freqName := "aaf", warnings := 0 }

/-- Like `gOk` but sample B is heterozygous-unphased at variant 2. -/
def gUnph : Genotypes :=
  { data := [[[0, 1, 1], [0, 0, 1]], [[1, 1, 1], [1, 0, 0]]],
    dtype := DType.uint8, nchan := 3,
    samples := ["A", "B"], variants := [⟨"V1", "1", 10, 3/5⟩, ⟨"V2", "1", 20, 2/5⟩],
    freqName := "aaf", warnings := 0 }

/-- An empty selection: no samples, no records. -/
def srcEmpty : VCFSource := ⟨[], []⟩

/-- A selection with one sample but no records (region mismatch). -/
def srcNoRecords : VCFSource := ⟨["HG00096"], []⟩

/-- A well-formed 2-sample, 2-variant VCF selection. -/
def srcGood : VCFSource :=
  ⟨["A", "B"],
   [⟨"V1", "1", 10, 3/5, [[0, 1, 1], [1, 1, 1]]⟩,
    ⟨"V2", "1", 20, 2/5, [[1, 1, 1], [0, 0, 1]]⟩]⟩

/-!  Generic list helpers. -/

theorem getD_lt {α : Type*} {l : List α} {i : Nat} (d : α) (h : i < l.length) :
    l.getD i d = l[i] := by
  simp [List.getD_eq_getElem?_getD, List.getElem?_eq_getElem h]

theorem getD_ge {α : Type*} {l : List α} {i : Nat} (d : α) (h : l.length ≤ i) :
    l.getD i d = d := by
  simp [List.getD_eq_getElem?_getD, List.getElem?_eq_none h]

theorem keepFrom_congr {α : Type*} {p q : Nat → Bool} (h : ∀ j, p j = q j)
    (i : Nat) (l : List α) : keepFrom p i l = keepFrom q i l := by
  induction l generalizing i with
  | nil => rfl
  | cons a rest ih => simp only [keepFrom, h i, ih]

theorem keepFrom_length_congr {α β : Type*} (p : Nat → Bool) (i : Nat)
    (l₁ : List α) (l₂ : List β) (h : l₁.length = l₂.length) :
    (keepFrom p i l₁).length = (keepFrom p i l₂).length := by
  induction l₁ generalizing i l₂ with
  | nil => cases l₂ with
    | nil => rfl
    | cons b bs => simp at h
  | cons a rest ih =>
    cases l₂ with
    | nil => simp at h
    | cons b bs =>
      simp only [List.length_cons] at h
      have h2 : rest.length = bs.length := by omega
      by_cases hp : p i
      · simp [keepFrom, hp, ih (i + 1) bs h2]
      · simp [keepFrom, hp, ih (i + 1) bs h2]

theorem mem_scanPairs {n : Nat} {f : Nat → List Nat} {s v : Nat} :
    (s, v) ∈ scanPairs n f ↔ s < n ∧ v ∈ f s := by
  simp only [scanPairs, List.mem_flatMap, List.mem_range, List.mem_map,
    Prod.mk.injEq]
  constructor
  · rintro ⟨a, ha, b, hb, h1, h2⟩
    subst h1; subst h2; exact ⟨ha, hb⟩
  · rintro ⟨hs, hv⟩
    exact ⟨s, hs, v, hv, rfl, rfl⟩

theorem fst_lt_of_mem_scanPairs {n : Nat} {f : Nat → List Nat}
    {q : Nat × Nat} (h : q ∈ scanPairs n f) : q.1 < n := by
  obtain ⟨s, v⟩ := q
  exact (mem_scanPairs.mp h).1

theorem sorted_filter_range (m : Nat) (p : Nat → Bool) :
    List.Sorted (· < ·) ((List.range m).filter p) :=
  List.Pairwise.filter p (List.sorted_lt_range m)

theorem sorted_scanPairs (n : Nat) (f : Nat → List Nat)
    (hf : ∀ s, List.Sorted (· < ·) (f s)) :
    List.Sorted lexLt (scanPairs n f) := by
  induction n with
  | zero => simp [scanPairs]
  | succ n ih =>
    rw [scanPairs, List.range_succ, List.flatMap_append]
    apply List.pairwise_append.mpr
    refine ⟨ih, ?_, ?_⟩
    · simp only [List.flatMap_cons, List.flatMap_nil, List.append_nil]
      exact List.pairwise_map.mpr ((hf n).imp (fun h => Or.inr ⟨rfl, h⟩))
    · intro a ha b hb
      have h1 : a.1 < n := fst_lt_of_mem_scanPairs ha
      have h2 : b.1 = n := by
        simp only [List.flatMap_cons, List.flatMap_nil, List.append_nil,
          List.mem_map] at hb
        obtain ⟨v, hv, rfl⟩ := hb
        rfl
      exact Or.inl (h2 ▸ h1)

theorem lexLe_of_lexLt {a b : Nat × Nat} (h : lexLt a b) : lexLe a b := by
  rcases h with h | ⟨h1, h2⟩
  · exact Or.inl h
  · exact Or.inr ⟨h1, Nat.le_of_lt h2⟩

theorem lexLe_refl (a : Nat × Nat) : lexLe a a := Or.inr ⟨rfl, Nat.le_refl _⟩

theorem head_lexLe {l : List (Nat × Nat)} {p0 : Nat × Nat}
    {rest : List (Nat × Nat)} (hs : List.Sorted lexLt l)
    (he : l = p0 :: rest) : ∀ q ∈ l, lexLe p0 q := by
  subst he
  intro q hq
  rcases List.mem_cons.mp hq with rfl | hq
  · exact lexLe_refl q
  · exact lexLe_of_lexLt ((List.sorted_cons.mp hs).1 q hq)

/-!  Bridges between the index-level masks and the pair lists. -/

theorem unphVal_nil (dt : DType) : unphVal dt [] = 0 := by
  cases dt <;> rfl

theorem mem_rowOffending {row : List (List Nat)} {v : Nat} :
    v ∈ rowOffending row ↔
      v < row.length ∧ cellMulti (row.getD v []) = true := by
  simp [rowOffending, List.mem_filter, List.mem_range]

theorem mem_rowUnphased {dt : DType} {row : List (List Nat)} {v : Nat} :
    v ∈ rowUnphased dt row ↔
      v < row.length ∧ unphVal dt (row.getD v []) ≠ 0 := by
  simp [rowUnphased, List.mem_filter, List.mem_range]

theorem multiAt_lt {g : Genotypes} {s v : Nat} (h : multiAt g s v = true) :
    s < g.data.length ∧ v < (g.data.getD s []).length := by
  constructor
  · by_contra hs
    rw [multiAt, getD_ge _ (Nat.le_of_not_lt hs)] at h
    simp [cellMulti, List.getD_eq_getElem?_getD] at h
  · by_contra hv
    rw [multiAt, getD_ge _ (Nat.le_of_not_lt hv)] at h
    simp [cellMulti] at h

theorem unphAt_lt {g : Genotypes} {s v : Nat} (h : unphAt g s v = true) :
    s < g.data.length ∧ v < (g.data.getD s []).length := by
  constructor
  · by_contra hs
    rw [unphAt, getD_ge _ (Nat.le_of_not_lt hs)] at h
    simp [unphVal_nil, List.getD_eq_getElem?_getD] at h
  · by_contra hv
    rw [unphAt, getD_ge _ (Nat.le_of_not_lt hv)] at h
    simp [unphVal_nil] at h

theorem multiAt_iff_mem {g : Genotypes} {s v : Nat} :
    multiAt g s v = true ↔ (s, v) ∈ offendingPairs g := by
  rw [offendingPairs, mem_scanPairs, mem_rowOffending]
  constructor
  · intro h
    obtain ⟨hs, hv⟩ := multiAt_lt h
    exact ⟨hs, hv, h⟩
  · rintro ⟨hs, hv, h⟩
    exact h

theorem unphAt_iff_mem {g : Genotypes} {s v : Nat} :
    unphAt g s v = true ↔ (s, v) ∈ unphasedPairs g := by
  rw [unphasedPairs, mem_scanPairs, mem_rowUnphased]
  constructor
  · intro h
    obtain ⟨hs, hv⟩ := unphAt_lt h
    refine ⟨hs, hv, ?_⟩
    simpa [unphAt] using h
  · rintro ⟨hs, hv, h⟩
    simpa [unphAt] using h

theorem sorted_offendingPairs (g : Genotypes) :
    List.Sorted lexLt (offendingPairs g) :=
  sorted_scanPairs _ _ (fun _ => sorted_filter_range _ _)

theorem sorted_unphasedPairs (g : Genotypes) :
    List.Sorted lexLt (unphasedPairs g) :=
  sorted_scanPairs _ _ (fun _ => sorted_filter_range _ _)

theorem variantMulti_iff {g : Genotypes} {v : Nat} :
    variantMulti g v = true ↔ ∃ s, multiAt g s v = true := by
  rw [variantMulti, List.any_eq_true]
  constructor
  · rintro ⟨row, hrow, h⟩
    obtain ⟨s, hs, rfl⟩ := List.mem_iff_getElem.mp hrow
    refine ⟨s, ?_⟩
    rw [multiAt, getD_lt _ hs]
    exact h
  · rintro ⟨s, h⟩
    obtain ⟨hs, _⟩ := multiAt_lt h
    rw [multiAt, getD_lt _ hs] at h
    exact ⟨g.data[s], List.getElem_mem hs, h⟩

theorem hasMulti_iff {g : Genotypes} :
    hasMulti g = true ↔ ∃ s v, multiAt g s v = true := by
  rw [hasMulti, List.any_eq_true]
  constructor
  · rintro ⟨row, hrow, hr⟩
    rw [List.any_eq_true] at hr
    obtain ⟨cell, hcell, hc⟩ := hr
    obtain ⟨s, hs, rfl⟩ := List.mem_iff_getElem.mp hrow
    obtain ⟨v, hv, rfl⟩ := List.mem_iff_getElem.mp hcell
    refine ⟨s, v, ?_⟩
    rw [multiAt, getD_lt _ hs, getD_lt _ hv]
    exact hc
  · rintro ⟨s, v, h⟩
    obtain ⟨hs, hv⟩ := multiAt_lt h
    rw [multiAt, getD_lt _ hs] at h
    rw [getD_lt _ hs] at hv
    refine ⟨g.data[s], List.getElem_mem hs, ?_⟩
    rw [List.any_eq_true]
    refine ⟨(g.data[s]).getD v [], ?_, h⟩
    rw [getD_lt _ hv]
    exact List.getElem_mem hv

theorem offendingPairs_ne_nil {g : Genotypes} (h : hasMulti g = true) :
    offendingPairs g ≠ [] := by
  obtain ⟨s, v, hm⟩ := hasMulti_iff.mp h
  intro hnil
  have := multiAt_iff_mem.mp hm
  rw [hnil] at this
  exact List.not_mem_nil _ this

theorem getD_le_one {cell : List Nat} (h : ∀ x ∈ cell, x ≤ 1) (i : Nat) :
    cell.getD i 0 ≤ 1 := by
  by_cases hi : i < cell.length
  · rw [getD_lt _ hi]
    exact h _ (List.getElem_mem hi)
  · rw [getD_ge _ (Nat.le_of_not_lt hi)]
    exact Nat.zero_le 1

theorem unphVal_eq_het (dt : DType) (a b c : Nat)
    (h0 : a ≤ 1) (h1 : b ≤ 1) (h2 : c ≤ 1) :
    Nat.land (Nat.xor a b) (npNot dt c) ≠ 0 ↔ a ≠ b ∧ c = 0 := by
  rcases Nat.le_one_iff_eq_zero_or_eq_one.mp h0 with rfl | rfl <;>
    rcases Nat.le_one_iff_eq_zero_or_eq_one.mp h1 with rfl | rfl <;>
      rcases Nat.le_one_iff_eq_zero_or_eq_one.mp h2 with rfl | rfl <;>
        cases dt <;> simp [npNot] <;> decide

theorem cellUnph_iff (dt : DType) (cell : List Nat) (h : ∀ x ∈ cell, x ≤ 1) :
    ((cell.getD 0 0 != cell.getD 1 0) && (cell.getD 2 0 == 0)) = true ↔
      unphVal dt cell ≠ 0 := by
  rw [unphVal,
    unphVal_eq_het dt _ _ _ (getD_le_one h 0) (getD_le_one h 1) (getD_le_one h 2)]
  simp [Bool.and_eq_true, bne_iff_ne, beq_iff_eq]

/-!  Claim theorems. -/

/-- C2: `GenotypesPLINK.read` does not satisfy the VCF loader's contract on
any source: it evaluates `variant_ct = variant_ct_end - variant_ct_start`
with `variant_ct_end = None`, raising a `TypeError` before the file is
opened, and never populates `samples`, `variants` or the tensor. -/
theorem c2_plink_read_always_fails (src : PGENSource) :
    plinkRead src = Except.error GtError.typeError := rfl

/-- C3 (counterexample): on the empty selection (zero samples, zero
variants) `read` does not log a warning and return an empty matrix — it
raises a `ValueError`, because the empty data array is 1-dimensional and
the `transpose((1, 0, 2))` needs 3 axes. -/
theorem c3_counterexample :
    readVCF srcEmpty =
      Except.error (GtError.valueError "axes do not match array") := rfl

/-- C3 (amended): for every selection whose result has zero variants,
`read` raises a `ValueError` from the axis transpose, and the empty-result
warning — which requires the array's shape to be exactly `(0, 0, 0)` —
never fires, since the empty data array has shape `(0,)`. -/
theorem c3_empty_read_raises (src : VCFSource) (h : src.records = []) :
    readVCF src =
        Except.error (GtError.valueError "axes do not match array") ∧
      npShape3 (recordData src) ≠ [0, 0, 0] := by
  have hd : recordData src = [] := by simp [recordData, h]
  constructor
  · simp [readVCF, hd, npShape3]
  · simp [hd, npShape3]

/-- C3 (witness): a source with one sample and an empty region selection. -/
theorem c3_witness :
    srcNoRecords.records = [] ∧
      (readVCF srcNoRecords =
          Except.error (GtError.valueError "axes do not match array") ∧
        npShape3 (recordData srcNoRecords) ≠ [0, 0, 0]) :=
  ⟨rfl, c3_empty_read_raises srcNoRecords rfl⟩

/-- C5: whenever `check_biallelic` (without discarding) or `check_phase`
raises, the returned state — tensor, dtype, channel count, samples,
variants, frequency label and warning count — is exactly the input state:
detection precedes every mutation. -/
theorem c5_failing_checks_no_mutation :
    (∀ g : Genotypes, (g.check_biallelic false).2 ≠ none →
        (g.check_biallelic false).1 = g) ∧
      ∀ g : Genotypes, g.check_phase.2 ≠ none → g.check_phase.1 = g := by
  constructor
  · intro g h
    rw [Genotypes.check_biallelic] at h ⊢
    by_cases hd : g.dtype = DType.bool
    · simp [hd] at h
    · simp only [hd, if_false] at h ⊢
      cases ho : offendingPairs g with
      | nil => rw [ho] at h; simp at h
      | cons p rest =>
        obtain ⟨s, v⟩ := p
        simp
  · intro g h
    rw [Genotypes.check_phase] at h ⊢
    by_cases hc : g.nchan < 3
    · simp [hc] at h
    · simp only [hc, if_false] at h ⊢
      cases hu : unphasedPairs g with
      | nil => rw [hu] at h; simp at h
      | cons p rest =>
        obtain ⟨s, v⟩ := p
        simp

/-- C5 (witness): a multiallelic state and an unphased state, both left
unchanged by their failing check. -/
theorem c5_witness :
    (gMulti.check_biallelic false).1 = gMulti ∧ gUnph.check_phase.1 = gUnph :=
  ⟨c5_failing_checks_no_mutation.1 gMulti (by decide),
   c5_failing_checks_no_mutation.2 gUnph (by decide)⟩

/-- C1 (counterexample): on non-narrowed uint8 data whose only entry is
`(2, 0, phased)`, no entry is heterozygous with a false phase flag, yet
`check_phase` raises: the bitwise mask
`(strand1 XOR strand2) AND (NOT phase)` is `2 AND 254 = 2 ≠ 0`. -/
theorem c1_counterexample :
    hetUnphasedExists c1state = false ∧
      (Genotypes.check_phase c1state).2 =
        some (GtError.unphased "V1" "1" 100 "S1") := by
  exact ⟨rfl, by decide⟩

/-- C1 (amended): with the 3-entry channel still present, `check_phase`
raises iff the bitwise mask `(strand1 XOR strand2) AND (NOT phase)` is
nonzero somewhere; when every stored value is at most 1 — the only case
cyvcf2's 0/1 allele codes produce, and in particular on boolean data —
this coincides exactly with "some entry has `strand1 != strand2` and a
false phase flag", but on unsigned data with values above 1 the mask can
also fire for phased heterozygous entries. -/
theorem c1_check_phase_het_iff (g : Genotypes) (hch : 3 ≤ g.nchan)
    (hvals : ∀ row ∈ g.data, ∀ cell ∈ row, ∀ x ∈ cell, x ≤ 1) :
    g.check_phase.2 ≠ none ↔ hetUnphasedExists g = true := by
  have h3 : ¬g.nchan < 3 := Nat.not_lt.mpr hch
  have step1 : g.check_phase.2 ≠ none ↔ unphasedPairs g ≠ [] := by
    rw [Genotypes.check_phase]
    simp only [h3, if_false]
    cases hu : unphasedPairs g with
    | nil => simp
    | cons p rest =>
      obtain ⟨s, v⟩ := p
      simp
  have step2 : unphasedPairs g ≠ [] ↔ ∃ s v, unphAt g s v = true := by
    constructor
    · intro hne
      cases hu : unphasedPairs g with
      | nil => exact absurd hu hne
      | cons p rest =>
        obtain ⟨s, v⟩ := p
        exact ⟨s, v, unphAt_iff_mem.mpr (hu ▸ List.mem_cons_self _ _)⟩
    · rintro ⟨s, v, h⟩ hnil
      have hm := unphAt_iff_mem.mp h
      rw [hnil] at hm
      exact List.not_mem_nil _ hm
  have step3 : (∃ s v, unphAt g s v = true) ↔ hetUnphasedExists g = true := by
    rw [hetUnphasedExists, List.any_eq_true]
    constructor
    · rintro ⟨s, v, h⟩
      obtain ⟨hs, hv⟩ := unphAt_lt h
      rw [unphAt, getD_lt _ hs] at h
      rw [getD_lt _ hs] at hv
      refine ⟨g.data[s], List.getElem_mem hs, ?_⟩
      rw [List.any_eq_true]
      refine ⟨(g.data[s]).getD v [],
        by rw [getD_lt _ hv]; exact List.getElem_mem hv, ?_⟩
      have hb : ∀ x ∈ (g.data[s]).getD v [], x ≤ 1 := by
        intro x hx
        rw [getD_lt _ hv] at hx
        exact hvals _ (List.getElem_mem hs) _ (List.getElem_mem hv) x hx
      exact (cellUnph_iff g.dtype _ hb).mpr (by simpa using h)
    · rintro ⟨row, hrow, hr⟩
      rw [List.any_eq_true] at hr
      obtain ⟨cell, hcell, hc⟩ := hr
      obtain ⟨s, hs, rfl⟩ := List.mem_iff_getElem.mp hrow
      obtain ⟨v, hv, rfl⟩ := List.mem_iff_getElem.mp hcell
      have hb : ∀ x ∈ g.data[s][v], x ≤ 1 := fun x hx =>
        hvals _ (List.getElem_mem hs) _ (List.getElem_mem hv) x hx
      refine ⟨s, v, ?_⟩
      rw [unphAt, getD_lt _ hs, getD_lt _ hv]
      have hu := (cellUnph_iff g.dtype g.data[s][v] hb).mp hc
      simpa using hu
  exact step1.trans (step2.trans step3)

/-- C1 (witness): a 0/1-valued matrix with a heterozygous-unphased entry,
on which the amended equivalence holds and both sides are true. -/
theorem c1_witness :
    3 ≤ gUnph.nchan ∧
      (gUnph.check_phase.2 ≠ none ↔ hetUnphasedExists gUnph = true) :=
  ⟨by decide, c1_check_phase_het_iff gUnph (by decide) (by decide)⟩

theorem check_biallelic_on_bool {g : Genotypes} (h : g.dtype = DType.bool)
    (d : Bool) :
    g.check_biallelic d = ({ g with warnings := g.warnings + 1 }, none) := by
  rw [Genotypes.check_biallelic, if_pos h]

theorem check_biallelic_ok_dtype {g : Genotypes} {d : Bool}
    (h : (g.check_biallelic d).2 = none) :
    (g.check_biallelic d).1.dtype = DType.bool := by
  rw [Genotypes.check_biallelic] at h ⊢
  by_cases hd : g.dtype = DType.bool
  · simp only [hd, if_true]
  · simp only [hd, if_false] at h ⊢
    cases ho : offendingPairs g with
    | nil => simp [narrowToBool]
    | cons p rest =>
      obtain ⟨s, v⟩ := p
      rw [ho] at h
      cases d with
      | false => simp at h
      | true => simp [narrowToBool]

theorem check_phase_on_nchan {g : Genotypes} (h : g.nchan < 3) :
    g.check_phase = ({ g with warnings := g.warnings + 1 }, none) := by
  rw [Genotypes.check_phase, if_pos h]

theorem check_phase_ok_nchan {g : Genotypes} (h : g.check_phase.2 = none) :
    g.check_phase.1.nchan < 3 := by
  rw [Genotypes.check_phase] at h ⊢
  by_cases hc : g.nchan < 3
  · simp only [hc, if_true]
  · simp only [hc, if_false] at h ⊢
    cases hu : unphasedPairs g with
    | nil => exact Nat.lt_succ_of_le (Nat.min_le_right _ _)
    | cons p rest =>
      obtain ⟨s, v⟩ := p
      rw [hu] at h
      simp at h

theorem to_MAC_freqName (g : Genotypes) : g.to_MAC.freqName = "maf" := by
  rw [Genotypes.to_MAC]
  by_cases h : g.freqName = "maf"
  · simp [h]
  · simp [h]

theorem to_MAC_on_maf {g : Genotypes} (h : g.freqName = "maf") :
    g.to_MAC = { g with warnings := g.warnings + 1 } := by
  rw [Genotypes.to_MAC, if_pos h]

/-- C10: after a successful run of `check_biallelic`, `check_phase` or
`to_MAC`, running the same operation again changes no data — the only
difference is one more logged warning — and it raises nothing. -/
theorem c10_idempotent_with_warning :
    (∀ (g : Genotypes) (d : Bool), (g.check_biallelic d).2 = none →
        (g.check_biallelic d).1.check_biallelic d =
          ({ (g.check_biallelic d).1 with
              warnings := (g.check_biallelic d).1.warnings + 1 }, none)) ∧
      (∀ g : Genotypes, g.check_phase.2 = none →
        g.check_phase.1.check_phase =
          ({ g.check_phase.1 with
              warnings := g.check_phase.1.warnings + 1 }, none)) ∧
      ∀ g : Genotypes,
        g.to_MAC.to_MAC = { g.to_MAC with warnings := g.to_MAC.warnings + 1 } := by
  refine ⟨?_, ?_, ?_⟩
  · intro g d h
    exact check_biallelic_on_bool (check_biallelic_ok_dtype h) d
  · intro g h
    exact check_phase_on_nchan (check_phase_ok_nchan h)
  · intro g
    exact to_MAC_on_maf (to_MAC_freqName g)

/-- C10 (witness): the clean matrix `gOk` has a successful first
`check_biallelic`, and the second call is the warning-only no-op. -/
theorem c10_witness :
    (gOk.check_biallelic false).1.check_biallelic false =
      ({ (gOk.check_biallelic false).1 with
          warnings := (gOk.check_biallelic false).1.warnings + 1 }, none) :=
  c10_idempotent_with_warning.1 gOk false (by decide)

theorem flip2_getD_low (dt : DType) {cell : List Nat} (hl : 2 ≤ cell.length)
    {ch : Nat} (hch : ch < 2) :
    (flip2 dt cell).getD ch 0 = npNot dt (cell.getD ch 0) := by
  match cell, hl with
  | a :: b :: t, _ =>
    have he : flip2 dt (a :: b :: t) = npNot dt a :: npNot dt b :: t := rfl
    rw [he]
    interval_cases ch <;> rfl

theorem flip2_getD_high (dt : DType) {cell : List Nat} (hl : 2 ≤ cell.length)
    {ch : Nat} (hch : 2 ≤ ch) :
    (flip2 dt cell).getD ch 0 = cell.getD ch 0 := by
  match cell, hl with
  | a :: b :: t, _ =>
    have he : flip2 dt (a :: b :: t) = npNot dt a :: npNot dt b :: t := rfl
    rw [he]
    obtain ⟨n, rfl⟩ := Nat.exists_eq_add_of_le hch
    simp [Nat.add_comm 2 n, List.getD_cons_succ]

/-- C6: for a matrix still labelled with alternate-allele frequencies, a
variant with stored frequency above 0.5 gets frequency `1 - f` and each
sample's two strand channels complemented (`~` on the tensor's dtype),
while its further channels are untouched; a variant with frequency at most
0.5 keeps its metadata record and its entire tensor column unchanged. -/
theorem c6_to_MAC_recode (g : Genotypes) (v : Nat)
    (hfn : g.freqName = "aaf")
    (hrow : ∀ row ∈ g.data, row.length = g.variants.length)
    (hcell : ∀ row ∈ g.data, ∀ cell ∈ row, 2 ≤ cell.length)
    (hv : v < g.variants.length) :
    ((1 : ℚ) / 2 < (g.variants.getD v default).aaf →
        (g.to_MAC.variants.getD v default).aaf =
            1 - (g.variants.getD v default).aaf ∧
          ∀ s, s < g.data.length →
            (∀ ch, ch < 2 →
                cellAt g.to_MAC s v ch = npNot g.dtype (cellAt g s v ch)) ∧
              ∀ ch, 2 ≤ ch → cellAt g.to_MAC s v ch = cellAt g s v ch) ∧
      ((g.variants.getD v default).aaf ≤ (1 : ℚ) / 2 →
        g.to_MAC.variants.getD v default = g.variants.getD v default ∧
          ∀ s, s < g.data.length →
            (g.to_MAC.data.getD s []).getD v [] =
              (g.data.getD s []).getD v []) := by
  have hne : ¬g.freqName = "maf" := by simp [hfn]
  have hM : g.to_MAC =
      { g with
        data := g.data.map (fun row =>
          (row.zip g.variants).map (fun p =>
            if (1 : ℚ) / 2 < p.2.aaf then flip2 g.dtype p.1 else p.1))
        variants := g.variants.map (fun rec =>
          if (1 : ℚ) / 2 < rec.aaf then { rec with aaf := 1 - rec.aaf } else rec)
        freqName := "maf" } := by
    rw [Genotypes.to_MAC, if_neg hne]
  have hvar : g.to_MAC.variants.getD v default =
      (if (1 : ℚ) / 2 < (g.variants.getD v default).aaf
        then { g.variants.getD v default with
                aaf := 1 - (g.variants.getD v default).aaf }
        else g.variants.getD v default) := by
    rw [hM]
    rw [getD_lt _ (by simpa using hv), List.getElem_map, getD_lt _ hv]
  have hdata : ∀ s, s < g.data.length →
      (g.to_MAC.data.getD s []).getD v [] =
        (if (1 : ℚ) / 2 < (g.variants.getD v default).aaf
          then flip2 g.dtype ((g.data.getD s []).getD v [])
          else (g.data.getD s []).getD v []) := by
    intro s hs
    have hrl : (g.data[s]).length = g.variants.length :=
      hrow _ (List.getElem_mem hs)
    have hzl : v < ((g.data[s]).zip g.variants).length := by
      rw [List.length_zip, hrl]
      simpa [Nat.min_self] using hv
    rw [hM]
    rw [getD_lt ([] : List (List Nat)) (by simpa using hs), List.getElem_map]
    rw [getD_lt _ (by simpa using hzl), List.getElem_map, List.getElem_zip]
    rw [getD_lt _ hs, getD_lt _ (hrl ▸ hv : v < (g.data[s]).length),
      getD_lt _ hv]
  have hcl : ∀ s, s < g.data.length →
      2 ≤ ((g.data.getD s []).getD v []).length := by
    intro s hs
    have hrl : (g.data[s]).length = g.variants.length :=
      hrow _ (List.getElem_mem hs)
    rw [getD_lt _ hs, getD_lt _ (hrl ▸ hv : v < (g.data[s]).length)]
    exact hcell _ (List.getElem_mem hs) _ (List.getElem_mem _)
  constructor
  · intro hgt
    constructor
    · rw [hvar, if_pos hgt]
    · intro s hs
      constructor
      · intro ch hch
        rw [cellAt, cellAt, hdata s hs, if_pos hgt]
        exact flip2_getD_low _ (hcl s hs) hch
      · intro ch hch
        rw [cellAt, cellAt, hdata s hs, if_pos hgt]
        exact flip2_getD_high _ (hcl s hs) hch
  · intro hle
    have hngt : ¬(1 : ℚ) / 2 < (g.variants.getD v default).aaf :=
      not_lt.mpr hle
    refine ⟨by rw [hvar, if_neg hngt], ?_⟩
    intro s hs
    rw [hdata s hs, if_neg hngt]

/-- C6 (witness): on `gOk`, variant 0 has frequency 3/5 > 1/2, so it is
complemented and its frequency becomes 2/5; variant 1 has 2/5 ≤ 1/2 and is
left unchanged. -/
theorem c6_witness :
    ((1 : ℚ) / 2 < (gOk.variants.getD 0 default).aaf →
        (gOk.to_MAC.variants.getD 0 default).aaf =
            1 - (gOk.variants.getD 0 default).aaf ∧
          ∀ s, s < gOk.data.length →
            (∀ ch, ch < 2 →
                cellAt gOk.to_MAC s 0 ch = npNot gOk.dtype (cellAt gOk s 0 ch)) ∧
              ∀ ch, 2 ≤ ch → cellAt gOk.to_MAC s 0 ch = cellAt gOk s 0 ch) ∧
      ((gOk.variants.getD 0 default).aaf ≤ (1 : ℚ) / 2 →
        gOk.to_MAC.variants.getD 0 default = gOk.variants.getD 0 default ∧
          ∀ s, s < gOk.data.length →
            (gOk.to_MAC.data.getD s []).getD 0 [] =
              (gOk.data.getD s []).getD 0 []) :=
  c6_to_MAC_recode gOk 0 rfl (by decide) (by decide) (by decide)

/-- C9: whenever `check_biallelic` (without discarding) or `check_phase`
raises, the variant (id, chrom, pos) and sample named in the error belong
to the first offending (sample, variant) pair in sample-major scan order:
the reported pair offends, and it precedes every offending pair in the
lexicographic (sample, variant) order. -/
theorem c9_first_offender_reported :
    (∀ (g : Genotypes) (e : GtError), (g.check_biallelic false).2 = some e →
        ∃ s v, multiAt g s v = true ∧
          (∀ t w, multiAt g t w = true → lexLe (s, v) (t, w)) ∧
          e = GtError.multiallelic (g.variants.getD v default).id
            (g.variants.getD v default).chrom (g.variants.getD v default).pos
            (g.samples.getD s "")) ∧
      ∀ (g : Genotypes) (e : GtError), g.check_phase.2 = some e →
        ∃ s v, unphAt g s v = true ∧
          (∀ t w, unphAt g t w = true → lexLe (s, v) (t, w)) ∧
          e = GtError.unphased (g.variants.getD v default).id
            (g.variants.getD v default).chrom (g.variants.getD v default).pos
            (g.samples.getD s "") := by
  constructor
  · intro g e h
    rw [Genotypes.check_biallelic] at h
    by_cases hd : g.dtype = DType.bool
    · simp [hd] at h
    · simp only [hd, if_false] at h
      cases ho : offendingPairs g with
      | nil => rw [ho] at h; simp at h
      | cons p rest =>
        obtain ⟨s, v⟩ := p
        rw [ho] at h
        simp at h
        refine ⟨s, v, ?_, ?_, ?_⟩
        · exact multiAt_iff_mem.mpr (ho ▸ List.mem_cons_self _ _)
        · intro t w hm
          exact head_lexLe (sorted_offendingPairs g) ho _
            (multiAt_iff_mem.mp hm)
        · simp only [List.getD_eq_getElem?_getD]
          exact h.symm
  · intro g e h
    rw [Genotypes.check_phase] at h
    by_cases hc : g.nchan < 3
    · simp [hc] at h
    · simp only [hc, if_false] at h
      cases hu : unphasedPairs g with
      | nil => rw [hu] at h; simp at h
      | cons p rest =>
        obtain ⟨s, v⟩ := p
        rw [hu] at h
        simp at h
        refine ⟨s, v, ?_, ?_, ?_⟩
        · exact unphAt_iff_mem.mpr (hu ▸ List.mem_cons_self _ _)
        · intro t w hm
          exact head_lexLe (sorted_unphasedPairs g) hu _
            (unphAt_iff_mem.mp hm)
        · simp only [List.getD_eq_getElem?_getD]
          exact h.symm

/-- C9 (witness): on `gMulti`, sample B (index 1) offends at variant 0, so
the first offending pair is (1, 0) and the error names V1 and B. -/
theorem c9_witness :
    ∃ s v, multiAt gMulti s v = true ∧
      (∀ t w, multiAt gMulti t w = true → lexLe (s, v) (t, w)) ∧
      GtError.multiallelic "V1" "1" 10 "B" =
        GtError.multiallelic (gMulti.variants.getD v default).id
          (gMulti.variants.getD v default).chrom
          (gMulti.variants.getD v default).pos (gMulti.samples.getD s "") :=
  c9_first_offender_reported.1 gMulti
    (GtError.multiallelic "V1" "1" 10 "B") (by decide)

theorem contains_true_iff {l : List Nat} {a : Nat} :
    l.contains a = true ↔ a ∈ l := by
  simp [List.contains, List.elem_iff]

theorem contains_variantIdx (g : Genotypes) (i : Nat) :
    ((offendingPairs g).map Prod.snd).contains i = variantMulti g i := by
  have hiff : ((offendingPairs g).map Prod.snd).contains i = true ↔
      variantMulti g i = true := by
    rw [contains_true_iff, variantMulti_iff]
    constructor
    · intro hmem
      obtain ⟨p, hp, hpe⟩ := List.mem_map.mp hmem
      obtain ⟨s, v⟩ := p
      cases hpe
      exact ⟨s, multiAt_iff_mem.mpr hp⟩
    · rintro ⟨s, hm⟩
      exact List.mem_map.mpr ⟨(s, i), multiAt_iff_mem.mp hm, rfl⟩
  exact Bool.eq_iff_iff.mpr (by simpa using hiff)

/-- C7: on a matrix that still holds uint8 codes and contains a value above
1 in the strand channels, `check_biallelic(discard_also=True)` raises
nothing, keeps the samples, removes exactly the multiallelic variant
columns from the tensor and exactly their records from `variants` (keeping
every non-offending column in order), and narrows what remains to
boolean. -/
theorem c7_discard_multiallelic (g : Genotypes)
    (hdt : g.dtype = DType.uint8) (hex : hasMulti g = true) :
    (g.check_biallelic true).2 = none ∧
      (g.check_biallelic true).1.samples = g.samples ∧
      (g.check_biallelic true).1.dtype = DType.bool ∧
      (g.check_biallelic true).1.variants =
        keepByIdx (fun i => !variantMulti g i) g.variants ∧
      (g.check_biallelic true).1.data =
        g.data.map (fun row =>
          (keepByIdx (fun i => !variantMulti g i) row).map
            (fun cell => cell.map narrow)) := by
  have hnb : ¬g.dtype = DType.bool := by simp [hdt]
  cases ho : offendingPairs g with
  | nil => exact absurd ho (offendingPairs_ne_nil hex)
  | cons p rest =>
    obtain ⟨s, v⟩ := p
    have hres : g.check_biallelic true =
        (narrowToBool
          { g with
            data := g.data.map (fun row =>
              removeIdxs (((s, v) :: rest).map Prod.snd) row)
            variants := removeIdxs (((s, v) :: rest).map Prod.snd) g.variants },
          none) := by
      rw [Genotypes.check_biallelic, if_neg hnb, ho]
      rfl
    have hkeep : ∀ {α : Type} (l : List α),
        removeIdxs (((s, v) :: rest).map Prod.snd) l =
          keepByIdx (fun i => !variantMulti g i) l := by
      intro α l
      rw [removeIdxs, keepByIdx, keepByIdx]
      refine keepFrom_congr (fun j => ?_) 0 l
      rw [← ho, contains_variantIdx g j]
    refine ⟨by rw [hres], by rw [hres]; rfl, by rw [hres]; rfl, ?_, ?_⟩
    · rw [hres]
      show removeIdxs (((s, v) :: rest).map Prod.snd) g.variants = _
      exact hkeep g.variants
    · rw [hres]
      show (g.data.map (fun row =>
          removeIdxs (((s, v) :: rest).map Prod.snd) row)).map
            (fun row => row.map (fun cell => cell.map narrow)) = _
      rw [List.map_map]
      refine List.map_congr_left (fun row _ => ?_)
      simp only [Function.comp]
      rw [hkeep row]

/-- C7 (witness): discarding on `gMulti` keeps the samples, drops exactly
variant column 0 (the multiallelic one), and narrows to boolean. -/
theorem c7_witness :
    (gMulti.check_biallelic true).2 = none ∧
      (gMulti.check_biallelic true).1.samples = gMulti.samples ∧
      (gMulti.check_biallelic true).1.dtype = DType.bool ∧
      (gMulti.check_biallelic true).1.variants =
        keepByIdx (fun i => !variantMulti gMulti i) gMulti.variants ∧
      (gMulti.check_biallelic true).1.data =
        gMulti.data.map (fun row =>
          (keepByIdx (fun i => !variantMulti gMulti i) row).map
            (fun cell => cell.map narrow)) :=
  c7_discard_multiallelic gMulti rfl (by decide)

theorem transpose102_length (n : Nat) (l : List (List (List Nat))) :
    (transpose102 n l).length = n := by
  simp [transpose102]

theorem transpose102_row_length {n : Nat} {l : List (List (List Nat))}
    {row : List (List Nat)} (h : row ∈ transpose102 n l) :
    row.length = l.length := by
  rw [transpose102] at h
  obtain ⟨s, _, rfl⟩ := List.mem_map.mp h
  simp

theorem dimsOk_narrowToBool {g : Genotypes} (h : dimsOk g) :
    dimsOk (narrowToBool g) := by
  refine ⟨by simpa [narrowToBool] using h.1, ?_⟩
  intro row hrow
  simp only [narrowToBool, List.mem_map] at hrow
  obtain ⟨row0, h0, rfl⟩ := hrow
  simpa [narrowToBool] using h.2 row0 h0

/-- C8: the spec's axis invariant.  A successful `read` from a well-formed
source establishes `data.length = samples.length` and
`row.length = variants.length` for every row, and each of
`check_biallelic` (either mode), `check_phase` and `to_MAC` preserves it —
whether it warns, raises or succeeds. -/
theorem c8_dims_invariant :
    (∀ (src : VCFSource) (g : Genotypes), WellFormedSource src →
        readVCF src = Except.ok g → dimsOk g) ∧
      (∀ (g : Genotypes) (d : Bool), dimsOk g →
        dimsOk (g.check_biallelic d).1) ∧
      (∀ g : Genotypes, dimsOk g → dimsOk g.check_phase.1) ∧
      ∀ g : Genotypes, dimsOk g → dimsOk g.to_MAC := by
  refine ⟨?_, ?_, ?_, ?_⟩
  · intro src g hwf hok
    cases hr : src.records with
    | nil =>
      rw [readVCF] at hok
      simp [hr, recordData, npShape3] at hok
    | cons r rs =>
      cases hg : r.genotypes with
      | nil =>
        rw [readVCF] at hok
        simp [hr, hg, recordData, npShape3] at hok
      | cons c cs =>
        rw [readVCF] at hok
        simp only [hr, hg, recordData, npShape3, List.map_cons,
          Except.ok.injEq] at hok
        subst hok
        constructor
        · rw [transpose102_length]
          have hrg : r.genotypes.length = src.samples.length :=
            hwf r (hr ▸ List.mem_cons_self _ _)

          simp only [List.length_cons, List.length_map]
          rw [hg] at hrg
          simpa using hrg
        · intro row hrow
          have hlen := transpose102_row_length hrow
          simpa [hr] using hlen
  · intro g d hd
    rw [Genotypes.check_biallelic]
    by_cases hb : g.dtype = DType.bool
    · simp only [hb, if_true]
      exact hd
    · simp only [hb, if_false]
      cases ho : offendingPairs g with
      | nil => exact dimsOk_narrowToBool hd
      | cons p rest =>
        obtain ⟨s, v⟩ := p
        cases d with
        | false => exact hd
        | true =>
          simp only [if_true]
          apply dimsOk_narrowToBool
          refine ⟨by simpa using hd.1, ?_⟩
          intro row hrow
          simp only [List.mem_map] at hrow
          obtain ⟨row0, h0, rfl⟩ := hrow
          rw [removeIdxs, removeIdxs, keepByIdx, keepByIdx]
          exact keepFrom_length_congr _ 0 _ _ (hd.2 row0 h0)
  · intro g hd
    rw [Genotypes.check_phase]
    by_cases hc : g.nchan < 3
    · simp only [hc, if_true]
      exact hd
    · simp only [hc, if_false]
      cases hu : unphasedPairs g with
      | nil =>
        refine ⟨by simpa using hd.1, ?_⟩
        intro row hrow
        simp only [List.mem_map] at hrow
        obtain ⟨row0, h0, rfl⟩ := hrow
        simpa using hd.2 row0 h0
      | cons p rest =>
        obtain ⟨s, v⟩ := p
        exact hd
  · intro g hd
    rw [Genotypes.to_MAC]
    by_cases hm : g.freqName = "maf"
    · simp only [hm, if_true]
      exact hd
    · simp only [hm, if_false]
      refine ⟨by simpa using hd.1, ?_⟩
      intro row hrow
      simp only [List.mem_map] at hrow
      obtain ⟨row0, h0, rfl⟩ := hrow
      simp only [List.length_map, List.length_zip, List.length_map]
      rw [hd.2 row0 h0]
      simp [Nat.min_self]

/-- C8 (witness): the invariant holds after a clean `check_biallelic` on
`gOk`. -/
theorem c8_witness : dimsOk (gOk.check_biallelic false).1 :=
  c8_dims_invariant.2.1 gOk false (by decide)

end HapTools
